import Mathlib

/-
  Verification development for the campaign-report-generator repository.

  The repository couples a thin Next.js transport layer (upload route,
  report-fetch route, recipient UI, invocation scripts — all present in the
  sources) with a Python report engine (loader, history store, diff engine,
  categorizer, aggregator, renderer, retention sweeper) whose contract is
  given by the specification.  Transport-layer definitions below are
  transliterated from the TypeScript/JavaScript sources; engine definitions
  are modelled from the specification, as marked in their doc comments.
-/

namespace CampaignReport

/-! ## Calendar dates (engine data model, spec section 3) -/

/-- Calendar date, `YYYY-MM-DD`. -/
structure CDate where
  year : Nat
  month : Nat
  day : Nat
deriving DecidableEq, Repr

/-- Numeric key giving the calendar order of dates (month < 100, day < 100
in all parsed dates, so lexicographic order agrees with this key). -/
def CDate.key (d : CDate) : Nat := d.year * 10000 + d.month * 100 + d.day

/-- Calendar order on dates. -/
def dLE (a b : CDate) : Prop := a.key ≤ b.key

/-- Strict calendar order on dates. -/
def dLT (a b : CDate) : Prop := a.key < b.key

instance (a b : CDate) : Decidable (dLE a b) := by unfold dLE; infer_instance

instance (a b : CDate) : Decidable (dLT a b) := by unfold dLT; infer_instance

/-! ## Campaign records (spec section 3) -/

/-- One campaign line-item (tactic), as loaded from a CSV row. -/
structure Campaign where
  vendor : String
  eventName : String
  tacticName : String
  orderId : String
  startDate : CDate
  endDate : CDate
  retailer : String
  brand : String
  product : String
  budget : Rat
  checklist : List (String × Bool)
deriving DecidableEq, Repr

/-- Composite identity key: (vendor, event name, tactic name, order id). -/
abbrev Identity : Type := String × String × String × String

/-- Identity of a campaign (spec section 3). -/
def Campaign.identity (c : Campaign) : Identity :=
  (c.vendor, c.eventName, c.tacticName, c.orderId)

/-! ## Categorizer

Modelled from the spec: the categorizer lives in the Python engine
(`campaign_report.py` / `process_campaign.py`), which is not among the
provided sources; the bucketing rule is taken from spec section 4.4. -/

/-- The three status buckets of the current campaign set. -/
structure Buckets where
  active : List Campaign
  upcoming : List Campaign
  completed : List Campaign
deriving DecidableEq, Repr

/-- Modelled from the spec: `categorize` of the missing Python engine.
Rule (spec section 4.4): completed iff end_date < referenceDate; active iff
start_date ≤ referenceDate ≤ end_date; upcoming iff start_date >
referenceDate. -/
def categorize (cs : List Campaign) (ref : CDate) : Buckets where
  active := cs.filter (fun c => decide (dLE c.startDate ref ∧ dLE ref c.endDate))
  upcoming := cs.filter (fun c => decide (dLT ref c.startDate))
  completed := cs.filter (fun c => decide (dLT c.endDate ref))

/-- Claim C3: categorize places each current campaign in exactly one of the
three buckets — completed iff end_date < referenceDate, active iff
start_date ≤ referenceDate ≤ end_date, upcoming iff start_date >
referenceDate — and under the invariant start_date ≤ end_date the buckets
are mutually exclusive and exhaustive. -/
theorem categorize_buckets_partition (cs : List Campaign) (ref : CDate)
    (c : Campaign) (hc : c ∈ cs) :
    (c ∈ (categorize cs ref).completed ↔ dLT c.endDate ref)
    ∧ (c ∈ (categorize cs ref).active ↔ (dLE c.startDate ref ∧ dLE ref c.endDate))
    ∧ (c ∈ (categorize cs ref).upcoming ↔ dLT ref c.startDate)
    ∧ (dLE c.startDate c.endDate →
        ((c ∈ (categorize cs ref).completed ∧ c ∉ (categorize cs ref).active
            ∧ c ∉ (categorize cs ref).upcoming)
        ∨ (c ∈ (categorize cs ref).active ∧ c ∉ (categorize cs ref).completed
            ∧ c ∉ (categorize cs ref).upcoming)
        ∨ (c ∈ (categorize cs ref).upcoming ∧ c ∉ (categorize cs ref).completed
            ∧ c ∉ (categorize cs ref).active))) := by
  have hcomp : c ∈ (categorize cs ref).completed ↔ c.endDate.key < ref.key := by
    simp [categorize, List.mem_filter, hc, dLT]
  have hact : c ∈ (categorize cs ref).active
      ↔ (c.startDate.key ≤ ref.key ∧ ref.key ≤ c.endDate.key) := by
    simp [categorize, List.mem_filter, hc, dLE]
  have hup : c ∈ (categorize cs ref).upcoming ↔ ref.key < c.startDate.key := by
    simp [categorize, List.mem_filter, hc, dLT]
  refine ⟨hcomp, hact, hup, ?_⟩
  intro hse
  unfold dLE at hse
  by_cases h1 : c.endDate.key < ref.key
  · exact Or.inl ⟨hcomp.mpr h1,
      fun h => absurd (hact.mp h).2 (by omega),
      fun h => absurd (hup.mp h) (by omega)⟩
  · by_cases h2 : ref.key < c.startDate.key
    · exact Or.inr (Or.inr ⟨hup.mpr h2,
        fun h => absurd (hcomp.mp h) (by omega),
        fun h => absurd (hact.mp h).1 (by omega)⟩)
    · exact Or.inr (Or.inl ⟨hact.mpr ⟨by omega, by omega⟩,
        fun h => absurd (hcomp.mp h) (by omega),
        fun h => absurd (hup.mp h) (by omega)⟩)

/-! ## Diff Engine

Modelled from the spec: the diff engine lives in the missing Python sources;
its contract is spec section 4.3 — identity-indexed lookup on both sides,
field-by-field comparison (dates by calendar equality, budget by exact
numeric equality, text after trimming surrounding whitespace, each
setup-checklist flag). -/

/-- Whitespace test used for trimming. -/
def isWs (c : Char) : Bool := c.isWhitespace

/-- Trim surrounding whitespace from a character list. -/
def trimChars (cs : List Char) : List Char :=
  ((cs.dropWhile isWs).reverse.dropWhile isWs).reverse

/-- Trim surrounding whitespace from a string. -/
def trimStr (s : String) : String := String.mk (trimChars s.data)

/-- Two-digit zero padding for months and days. -/
def fmt2 (n : Nat) : String := if n < 10 then "0" ++ toString n else toString n

/-- Display form of a calendar date, `YYYY-MM-DD`. -/
def CDate.render (d : CDate) : String :=
  toString d.year ++ "-" ++ fmt2 d.month ++ "-" ++ fmt2 d.day

/-- Display form of an exact decimal budget. -/
def ratStr (q : Rat) : String :=
  if q.den = 1 then toString q.num else toString q.num ++ "/" ++ toString q.den

/-- Per-identity change classification (spec section 3). -/
inductive ChangeRecord where
  | new
  | removed
  | changed (diffs : List (String × String × String))
  | unchanged
deriving DecidableEq, Repr

/-- Field diff for a text attribute: exact string equality after trimming. -/
def diffText (name a b : String) : List (String × String × String) :=
  if trimStr a = trimStr b then [] else [(name, trimStr a, trimStr b)]

/-- Field diff for a date attribute: calendar equality. -/
def diffDate (name : String) (a b : CDate) : List (String × String × String) :=
  if a = b then [] else [(name, a.render, b.render)]

/-- Field diff for the budget: exact numeric equality, no epsilon. -/
def diffBudget (a b : Rat) : List (String × String × String) :=
  if a = b then [] else [("budget", ratStr a, ratStr b)]

/-- Value of one setup-checklist flag, if present. -/
def lookupFlag (l : List (String × Bool)) (k : String) : Option Bool :=
  (l.find? (fun p => p.1 == k)).map (fun p => p.2)

/-- Display form of an optional flag value. -/
def flagStr : Option Bool → String
  | none => "absent"
  | some true => "true"
  | some false => "false"

/-- All flag names appearing on either side. -/
def flagNames (a b : List (String × Bool)) : List String :=
  (a.map (fun p => p.1) ++ b.map (fun p => p.1)).dedup

/-- Field diffs over every setup-checklist flag. -/
def diffFlags (a b : List (String × Bool)) : List (String × String × String) :=
  (flagNames a b).filterMap (fun k =>
    if lookupFlag a k = lookupFlag b k then none
    else some ("setup_checklist." ++ k, flagStr (lookupFlag a k), flagStr (lookupFlag b k)))

/-- Modelled from the spec: field-by-field comparison across every tracked
attribute (spec section 4.3). -/
def fieldDiffs (old cur : Campaign) : List (String × String × String) :=
  diffDate "start_date" old.startDate cur.startDate
    ++ diffDate "end_date" old.endDate cur.endDate
    ++ diffText "retailer" old.retailer cur.retailer
    ++ diffText "brand" old.brand cur.brand
    ++ diffText "product" old.product cur.product
    ++ diffBudget old.budget cur.budget
    ++ diffFlags old.checklist cur.checklist

/-- Classification of an identity present on both sides. -/
def compareCampaigns (old cur : Campaign) : ChangeRecord :=
  if fieldDiffs old cur = [] then ChangeRecord.unchanged
  else ChangeRecord.changed (fieldDiffs old cur)

/-- Identity-indexed lookup table; the first record with a given identity
wins, so keys are unique by construction. -/
def buildIndex : List Campaign → List (Identity × Campaign)
  | [] => []
  | c :: rest =>
      (c.identity, c) :: (buildIndex rest).filter (fun p => decide (¬ p.1 = c.identity))

/-- Look an identity up in an index. -/
def lookupId (idx : List (Identity × Campaign)) (k : Identity) : Option Campaign :=
  (idx.find? (fun p => decide (p.1 = k))).map (fun p => p.2)

/-- Modelled from the spec: `diff` of the missing Python engine (spec
section 4.3).  Identities only in `cur` are `new`; identities only in the
prior snapshot are `removed`; identities in both are compared field by
field. -/
def diff (cur : List Campaign) (previous : Option (List Campaign)) :
    List (Identity × ChangeRecord) :=
  (buildIndex cur).map (fun p =>
    match lookupId (buildIndex (previous.getD [])) p.1 with
    | none => (p.1, ChangeRecord.new)
    | some old => (p.1, compareCampaigns old p.2))
  ++ ((buildIndex (previous.getD [])).filter
        (fun p => (lookupId (buildIndex cur) p.1).isNone)).map
      (fun p => (p.1, ChangeRecord.removed))

/-- Index keys are unique. -/
lemma buildIndex_keys_nodup (S : List Campaign) :
    ((buildIndex S).map Prod.fst).Nodup := by
  induction S with
  | nil => simp [buildIndex]
  | cons c rest ih =>
      simp only [buildIndex, List.map_cons, List.nodup_cons]
      refine ⟨?_, ?_⟩
      · intro hmem
        rcases List.mem_map.mp hmem with ⟨p, hp, hkey⟩
        have hpred := List.of_mem_filter hp
        rw [decide_eq_true_eq] at hpred
        exact hpred hkey
      · exact ih.sublist ((List.filter_sublist _).map Prod.fst)

/-- Looking up the key of an entry of a key-unique index returns that
entry. -/
lemma lookupId_of_mem :
    ∀ (idx : List (Identity × Campaign)), ((idx.map Prod.fst).Nodup) →
      ∀ p ∈ idx, lookupId idx p.1 = some p.2 := by
  intro idx
  induction idx with
  | nil => intro _ p hp; cases hp
  | cons q rest ih =>
      intro hnd p hp
      rcases List.mem_cons.mp hp with rfl | hp2
      · rw [lookupId, List.find?_cons_of_pos _ (by simp)]
        rfl
      · have hq : ¬ q.1 = p.1 := by
          intro he
          have hk : p.1 ∈ rest.map Prod.fst := List.mem_map_of_mem Prod.fst hp2
          rw [List.map_cons, List.nodup_cons] at hnd
          exact hnd.1 (he ▸ hk)
        rw [lookupId, List.find?_cons_of_neg _ (by simpa using hq)]
        have := ih (by rw [List.map_cons, List.nodup_cons] at hnd; exact hnd.2) p hp2
        exact this

/-- Every campaign of the input is covered by the index. -/
lemma buildIndex_covers :
    ∀ (S : List Campaign), ∀ c ∈ S, ∃ p, p ∈ buildIndex S ∧ p.1 = c.identity := by
  intro S
  induction S with
  | nil => intro c hc; cases hc
  | cons a rest ih =>
      intro c hc
      rcases List.mem_cons.mp hc with rfl | hc2
      · exact ⟨(c.identity, c), List.mem_cons_self _ _, rfl⟩
      · rcases ih c hc2 with ⟨p, hp, hkey⟩
        by_cases he : p.1 = a.identity
        · exact ⟨(a.identity, a), List.mem_cons_self _ _, he.symm.trans hkey⟩
        · refine ⟨p, List.mem_cons_of_mem _ ?_, hkey⟩
          exact List.mem_filter.mpr ⟨hp, by simpa using he⟩

/-- Comparing a campaign with itself produces no field diffs. -/
lemma fieldDiffs_self (c : Campaign) : fieldDiffs c c = [] := by
  simp only [fieldDiffs, diffDate, diffText, diffBudget, diffFlags, if_pos rfl,
    List.nil_append]
  exact List.filterMap_eq_nil_iff.mpr (fun k _ => by simp)

/-- Claim C4: diffing a set of campaign records against a prior snapshot
with identical content yields `unchanged` for every identity, and no entry
of class `new`, `removed`, or `changed`. -/
theorem diff_self_all_unchanged (S : List Campaign) :
    (∀ e ∈ diff S (some S), e.2 = ChangeRecord.unchanged)
    ∧ (∀ c ∈ S, (c.identity, ChangeRecord.unchanged) ∈ diff S (some S)) := by
  have hnd := buildIndex_keys_nodup S
  have hlk : ∀ p ∈ buildIndex S, lookupId (buildIndex S) p.1 = some p.2 :=
    lookupId_of_mem _ hnd
  have hrem : (buildIndex S).filter
      (fun p => (lookupId (buildIndex S) p.1).isNone) = [] := by
    refine List.filter_eq_nil_iff.mpr ?_
    intro p hp
    simp [hlk p hp]
  constructor
  · intro e he
    unfold diff at he
    simp only [Option.getD_some, hrem, List.map_nil, List.append_nil] at he
    rcases List.mem_map.mp he with ⟨p, hp, rfl⟩
    rw [hlk p hp]
    simp [compareCampaigns, fieldDiffs_self]
  · intro c hc
    rcases buildIndex_covers S c hc with ⟨p, hp, hkey⟩
    unfold diff
    simp only [Option.getD_some]
    apply List.mem_append_left
    refine List.mem_map.mpr ⟨p, hp, ?_⟩
    rw [hlk p hp]
    simp [compareCampaigns, fieldDiffs_self, hkey]

/-! ## Record Loader

Modelled from the spec: the CSV loader lives in the missing Python sources;
its contract is spec section 4.1 — header checked once against the required
column set, per-row validation with accumulated row errors, silent skip of
summary rows (no parseable order id and no parseable dates).  Setup
checklist flags have no CSV column of their own, so loaded campaigns carry
an empty checklist. -/

/-- Digit-string test. -/
def digitsOk (cs : List Char) : Bool := !cs.isEmpty && cs.all Char.isDigit

/-- Decimal value of a digit string. -/
def natOfDigits (cs : List Char) : Nat :=
  cs.foldl (fun a c => a * 10 + (c.toNat - 48)) 0

/-- Parse a digit string. -/
def parseNat (cs : List Char) : Option Nat :=
  if digitsOk cs then some (natOfDigits cs) else none

/-- Split a character list on a separator. -/
def splitOnChar (sep : Char) : List Char → List (List Char)
  | [] => [[]]
  | c :: rest =>
      match splitOnChar sep rest with
      | [] => if c == sep then [[], []] else [[c]]
      | h :: t => if c == sep then [] :: h :: t else (c :: h) :: t

/-- Parse a calendar date written `YYYY-MM-DD`. -/
def parseDate (s : String) : Option CDate :=
  match splitOnChar '-' (trimChars s.data) with
  | [y, m, d] =>
      if y.length = 4 ∧ m.length = 2 ∧ d.length = 2 then
        match parseNat y, parseNat m, parseNat d with
        | some yn, some mn, some dn =>
            if 1 ≤ mn ∧ mn ≤ 12 ∧ 1 ≤ dn ∧ dn ≤ 31 then some ⟨yn, mn, dn⟩ else none
        | _, _, _ => none
      else none
  | _ => none

/-- Parse a non-negative decimal budget after stripping currency symbols
and thousands separators. -/
def parseBudget (s : String) : Option Rat :=
  match splitOnChar '.'
      ((trimChars s.data).filter (fun c => !(c == '$') && !(c == ','))) with
  | [w] => (parseNat w).map (fun n => (n : Rat))
  | [w, f] =>
      match parseNat w, parseNat f with
      | some wn, some fn => some ((wn : Rat) + (fn : Rat) / ((10 : Rat) ^ f.length))
      | _, _ => none
  | _ => none

/-- Parse an order id: any nonempty text after trimming. -/
def parseOrderId (s : String) : Option String :=
  if trimChars s.data = [] then none else some (trimStr s)

/-- The ten required CSV columns, exact names (spec section 6). -/
def requiredColumns : List String :=
  ["Tactic Start Date", "Tactic End Date", "Tactic Vendor", "Retailer",
   "Tactic Brand", "Event Name", "Tactic Name", "Tactic Product",
   "Tactic Order ID", "Tactic Allocated Budget"]

/-- One raw CSV row: an association of column name to cell text. -/
def Row : Type := List (String × String)

instance : DecidableEq Row := by unfold Row; infer_instance

/-- Cell of a row under a column name, empty when absent. -/
def getCol (row : Row) (name : String) : String :=
  ((row.find? (fun p => p.1 == name)).map (fun p => p.2)).getD ""

/-- Outcome of parsing one row. -/
inductive RowOutcome where
  | parsed (c : Campaign)
  | failed (reason : String)
  | skipped
deriving DecidableEq, Repr

/-- Modelled from the spec: per-row validation of the missing Python loader
(spec section 4.1). -/
def parseRow (row : Row) : RowOutcome :=
  let oid := parseOrderId (getCol row "Tactic Order ID")
  let sd := parseDate (getCol row "Tactic Start Date")
  let ed := parseDate (getCol row "Tactic End Date")
  if oid.isNone ∧ sd.isNone ∧ ed.isNone then RowOutcome.skipped
  else
    match sd with
    | none => RowOutcome.failed "bad start date"
    | some s =>
        match ed with
        | none => RowOutcome.failed "bad end date"
        | some e =>
            if ¬ dLE s e then RowOutcome.failed "start date after end date"
            else
              match parseBudget (getCol row "Tactic Allocated Budget") with
              | none => RowOutcome.failed "bad budget"
              | some b =>
                  RowOutcome.parsed
                    { vendor := getCol row "Tactic Vendor"
                      eventName := getCol row "Event Name"
                      tacticName := getCol row "Tactic Name"
                      orderId := oid.getD ""
                      startDate := s
                      endDate := e
                      retailer := getCol row "Retailer"
                      brand := getCol row "Tactic Brand"
                      product := getCol row "Tactic Product"
                      budget := b
                      checklist := [] }

/-- Loader result on a header that passes the schema check. -/
structure LoadOk where
  campaigns : List Campaign
  rowErrors : List (Nat × String)
deriving DecidableEq, Repr

/-- Loader result: schema failure for the whole batch, or campaigns plus
accumulated row errors. -/
inductive LoadResult where
  | schemaError (missing : List String)
  | ok (result : LoadOk)
deriving DecidableEq, Repr

/-- Parse all rows, numbering them from `i`. -/
def loadRows : Nat → List Row → LoadOk
  | _, [] => ⟨[], []⟩
  | i, r :: rest =>
      let t := loadRows (i + 1) rest
      match parseRow r with
      | RowOutcome.parsed c => ⟨c :: t.campaigns, t.rowErrors⟩
      | RowOutcome.failed reason => ⟨t.campaigns, (i, reason) :: t.rowErrors⟩
      | RowOutcome.skipped => t

/-- Required columns absent from a header. -/
def missingColumns (header : List String) : List String :=
  requiredColumns.filter (fun c => decide (¬ c ∈ header))

/-- Modelled from the spec: the missing Python loader (spec section 4.1).
The header is checked once; if any required column is absent the whole
batch fails with the set of missing names, otherwise rows are parsed
individually with 1-based numbering. -/
def load (header : List String) (rows : List Row) : LoadResult :=
  if missingColumns header = [] then LoadResult.ok (loadRows 1 rows)
  else LoadResult.schemaError (missingColumns header)

/-- Row errors are recorded with their offset-adjusted row number. -/
lemma loadRows_err :
    ∀ (rows : List Row) (i j : Nat) (row : Row) (reason : String),
      rows[j]? = some row → parseRow row = RowOutcome.failed reason →
      (i + j, reason) ∈ (loadRows i rows).rowErrors := by
  intro rows
  induction rows with
  | nil => intro i j row reason hj; simp at hj
  | cons r rest ih =>
      intro i j row reason hj hpr
      cases j with
      | zero =>
          simp only [List.getElem?_cons_zero, Option.some.injEq] at hj
          subst hj
          simp [loadRows, hpr]
      | succ j2 =>
          simp only [List.getElem?_cons_succ] at hj
          have hmem := ih (i + 1) j2 row reason hj hpr
          have harith : i + (j2 + 1) = (i + 1) + j2 := by omega
          rw [harith]
          cases hcase : parseRow r with
          | parsed c => simpa [loadRows, hcase] using hmem
          | failed rs =>
              simp only [loadRows, hcase, List.mem_cons]
              exact Or.inr hmem
          | skipped => simpa [loadRows, hcase] using hmem

/-- Successfully parsed rows land among the returned campaigns. -/
lemma loadRows_camp :
    ∀ (rows : List Row) (i j : Nat) (row : Row) (c : Campaign),
      rows[j]? = some row → parseRow row = RowOutcome.parsed c →
      c ∈ (loadRows i rows).campaigns := by
  intro rows
  induction rows with
  | nil => intro i j row c hj; simp at hj
  | cons r rest ih =>
      intro i j row c hj hpr
      cases j with
      | zero =>
          simp only [List.getElem?_cons_zero, Option.some.injEq] at hj
          subst hj
          simp [loadRows, hpr]
      | succ j2 =>
          simp only [List.getElem?_cons_succ] at hj
          have hmem := ih (i + 1) j2 row c hj hpr
          cases hcase : parseRow r with
          | parsed c2 =>
              simp only [loadRows, hcase, List.mem_cons]
              exact Or.inr hmem
          | failed rs => simpa [loadRows, hcase] using hmem
          | skipped => simpa [loadRows, hcase] using hmem

/-- Claim C6: a missing required column fails the whole batch with the
complete set of missing column names, independently of the rows (the
header check precedes row parsing); with all required columns present a
malformed row never fails the batch — it is recorded as a row error with
its 1-based row number and reason, alongside the parsed campaigns. -/
theorem load_schema_and_row_error_policy (header : List String) (rows : List Row) :
    (missingColumns header ≠ [] →
      (load header rows = LoadResult.schemaError (missingColumns header)
       ∧ (∀ rows2 : List Row, load header rows2 = load header rows)
       ∧ (∀ col ∈ requiredColumns, (col ∈ missingColumns header ↔ ¬ col ∈ header))))
    ∧ (missingColumns header = [] →
      (load header rows = LoadResult.ok (loadRows 1 rows)
       ∧ (∀ (j : Nat) (row : Row) (reason : String),
            rows[j]? = some row → parseRow row = RowOutcome.failed reason →
            (j + 1, reason) ∈ (loadRows 1 rows).rowErrors)
       ∧ (∀ (j : Nat) (row : Row) (c : Campaign),
            rows[j]? = some row → parseRow row = RowOutcome.parsed c →
            c ∈ (loadRows 1 rows).campaigns))) := by
  constructor
  · intro hne
    refine ⟨by simp [load, hne], fun rows2 => by simp [load, hne], fun col hcol => ?_⟩
    simp [missingColumns, List.mem_filter, hcol]
  · intro he
    refine ⟨by simp [load, he], ?_, ?_⟩
    · intro j row reason hj hpr
      have hmem := loadRows_err rows 1 j row reason hj hpr
      rwa [Nat.add_comm] at hmem
    · intro j row c hj hpr
      exact loadRows_camp rows 1 j row c hj hpr

/-- Row whose order id is present but whose start date does not parse. -/
def badRow : Row := [("Tactic Order ID", "12345-01"), ("Tactic Start Date", "not-a-date")]

/-- Witness for claim C6: a header missing columns fails the batch with the
missing set; a malformed row under a complete header is recorded as a
1-based row error. -/
theorem load_schema_and_row_error_policy_witness :
    (missingColumns ["Retailer"] ≠ []
     ∧ load ["Retailer"] [] = LoadResult.schemaError (missingColumns ["Retailer"]))
    ∧ (missingColumns requiredColumns = []
       ∧ (0 + 1, "bad start date") ∈ (loadRows 1 [badRow]).rowErrors) :=
  ⟨⟨by decide, ((load_schema_and_row_error_policy ["Retailer"] []).1 (by decide)).1⟩,
   ⟨by decide,
    (((load_schema_and_row_error_policy requiredColumns [badRow]).2 (by decide)).2.1)
      0 badRow "bad start date" (by decide) (by decide)⟩⟩

/-! ## Retention Sweeper

Modelled from the spec: the sweeper lives in the missing Python sources;
its contract is spec section 4.7 — it removes exactly the output files
whose filename-embedded generation timestamp is older than the retention
window, never consults filesystem mtime, never touches the History Store,
and is idempotent. -/

/-- A stored report file: name, the generation timestamp embedded in the
filename, and the filesystem modification time (which the sweeper must
ignore). -/
structure StoredFile where
  name : String
  embeddedTs : Nat
  mtime : Nat
deriving DecidableEq, Repr

/-- The two directories a run touches: rendered report output and the
History Store. -/
structure RunDirs where
  outputFiles : List StoredFile
  historyFiles : List StoredFile
deriving DecidableEq, Repr

/-- A file is expired when its embedded timestamp is older than
`now - retentionDays` (day-granularity timestamps). -/
def isExpired (retentionDays now : Nat) (f : StoredFile) : Bool :=
  decide (f.embeddedTs < now - retentionDays)

/-- Modelled from the spec: `sweep` of the missing Python engine (spec
section 4.7); returns the count of files removed and the resulting
directories. -/
def sweep (dirs : RunDirs) (retentionDays now : Nat) : Nat × RunDirs :=
  ((dirs.outputFiles.filter (isExpired retentionDays now)).length,
   ⟨dirs.outputFiles.filter (fun f => !(isExpired retentionDays now f)),
    dirs.historyFiles⟩)

/-- Rewrite every output file's filesystem mtime, leaving names and
embedded timestamps alone. -/
def setMtimes (dirs : RunDirs) (g : StoredFile → Nat) : RunDirs :=
  ⟨dirs.outputFiles.map (fun f => ⟨f.name, f.embeddedTs, g f⟩), dirs.historyFiles⟩

/-- Filtering by an mtime-blind predicate commutes with rewriting mtimes. -/
lemma filter_setMtime (l : List StoredFile) (g : StoredFile → Nat)
    (p : StoredFile → Bool)
    (hp : ∀ f : StoredFile, p ⟨f.name, f.embeddedTs, g f⟩ = p f) :
    (l.map (fun f => (⟨f.name, f.embeddedTs, g f⟩ : StoredFile))).filter p
      = (l.filter p).map (fun f => (⟨f.name, f.embeddedTs, g f⟩ : StoredFile)) := by
  induction l with
  | nil => simp
  | cons a t ih =>
      simp only [List.map_cons, List.filter_cons, hp a]
      cases h : p a <;> simp [h, ih]

/-- Claim C7: sweep removes exactly the output files whose embedded
timestamp is older than `now - retentionDays`, never consults mtime, never
touches the History Store, and a second consecutive invocation removes
zero files. -/
theorem sweep_exact_and_idempotent (dirs : RunDirs) (retentionDays now : Nat) :
    (∀ f : StoredFile,
        f ∈ (sweep dirs retentionDays now).2.outputFiles
          ↔ (f ∈ dirs.outputFiles ∧ ¬ f.embeddedTs < now - retentionDays))
    ∧ (sweep dirs retentionDays now).2.historyFiles = dirs.historyFiles
    ∧ (sweep dirs retentionDays now).1
        = (dirs.outputFiles.filter (isExpired retentionDays now)).length
    ∧ (∀ g : StoredFile → Nat,
        (sweep (setMtimes dirs g) retentionDays now).1
            = (sweep dirs retentionDays now).1
        ∧ (sweep (setMtimes dirs g) retentionDays now).2.outputFiles.map StoredFile.name
            = (sweep dirs retentionDays now).2.outputFiles.map StoredFile.name)
    ∧ ((sweep (sweep dirs retentionDays now).2 retentionDays now).1 = 0
        ∧ (sweep (sweep dirs retentionDays now).2 retentionDays now).2
            = (sweep dirs retentionDays now).2) := by
  refine ⟨?_, rfl, rfl, ?_, ?_, ?_⟩
  · intro f
    simp [sweep, List.mem_filter, isExpired]
  · intro g
    have hts : ∀ f : StoredFile,
        isExpired retentionDays now ⟨f.name, f.embeddedTs, g f⟩
          = isExpired retentionDays now f := fun f => rfl
    have hts2 : ∀ f : StoredFile,
        (fun x => !isExpired retentionDays now x)
            (⟨f.name, f.embeddedTs, g f⟩ : StoredFile)
          = (fun x => !isExpired retentionDays now x) f := fun f => rfl
    constructor
    · simp only [sweep, setMtimes,
        filter_setMtime dirs.outputFiles g (isExpired retentionDays now) hts,
        List.length_map]
    · simp only [sweep, setMtimes,
        filter_setMtime dirs.outputFiles g (fun x => !isExpired retentionDays now x) hts2,
        List.map_map]
      rfl
  · simp [sweep, List.filter_filter]
  · simp [sweep, List.filter_filter]

/-! ## Aggregator and Report Renderer

Modelled from the spec: aggregation (spec section 4.5) and rendering (spec
section 4.6) live in the missing Python sources.  The renderer is a pure
function of (buckets, changes, generated-at value); `renderInvocation`
additionally receives the ambient wall clock of the invocation, which —
per the spec — the report body must not consult. -/

/-- Exact decimal budget total of a group of campaigns (spec section 4.5). -/
def totalBudget (cs : List Campaign) : Rat := (cs.map (fun c => c.budget)).sum

/-- Calendar-month key of a date. -/
def monthKey (d : CDate) : Nat := d.year * 100 + d.month

/-- Display form of a month key. -/
def monthTitle (k : Nat) : String := toString (k / 100) ++ "-" ++ fmt2 (k % 100)

/-- Change record attached to a campaign, `unchanged` when absent. -/
def changeFor (changes : List (Identity × ChangeRecord)) (c : Campaign) : ChangeRecord :=
  ((changes.find? (fun p => decide (p.1 = c.identity))).map (fun p => p.2)).getD
    ChangeRecord.unchanged

/-- Indicator glyph of a campaign entry: new or has-changes. -/
def entryIndicator : ChangeRecord → String
  | ChangeRecord.new => " 🆕"
  | ChangeRecord.changed _ => " ⚠️"
  | _ => ""

/-- Does a change record count toward a section's change indicator? -/
def isChangedOrNew : ChangeRecord → Bool
  | ChangeRecord.new => true
  | ChangeRecord.changed _ => true
  | _ => false

/-- Count of changed or new campaigns inside a section. -/
def sectionChangeCount (changes : List (Identity × ChangeRecord))
    (cs : List Campaign) : Nat :=
  (cs.filter (fun c => isChangedOrNew (changeFor changes c))).length

/-- Alphabetical sort for retailer names. -/
def sortStrings (l : List String) : List String :=
  l.mergeSort (fun a b => decide (a ≤ b))

/-- Chronological sort for month keys. -/
def sortNats (l : List Nat) : List Nat :=
  l.mergeSort (fun a b => decide (a ≤ b))

/-- Stable campaign order inside a retailer group: start date, then tactic
name. -/
def sortCampaigns (l : List Campaign) : List Campaign :=
  l.mergeSort (fun a b =>
    decide (dLT a.startDate b.startDate)
      || (decide (a.startDate = b.startDate) && decide (a.tacticName ≤ b.tacticName)))

/-- Retailer groups of a bucket, alphabetical. -/
def retailersOf (cs : List Campaign) : List String :=
  sortStrings ((cs.map (fun c => c.retailer)).dedup)

/-- Months of the upcoming bucket, chronological. -/
def monthsOf (cs : List Campaign) : List Nat :=
  sortNats ((cs.map (fun c => monthKey c.startDate)).dedup)

/-- Display form of one field difference. -/
def diffLine (t : String × String × String) : String :=
  t.1 ++ ": " ++ t.2.1 ++ " -> " ++ t.2.2

/-- Lines of one campaign entry: date range, vendor, product, budget,
setup checklist, and old-to-new differences when changed. -/
def entryLines (changes : List (Identity × ChangeRecord)) (c : Campaign) :
    List String :=
  ("- " ++ c.tacticName ++ entryIndicator (changeFor changes c))
    :: ("  - Event: " ++ c.eventName)
    :: ("  - Product: " ++ c.product)
    :: ("  - Budget: " ++ ratStr c.budget)
    :: ("  - Dates: " ++ c.startDate.render ++ " to " ++ c.endDate.render)
    :: ("  - Vendor: " ++ c.vendor)
    :: (c.checklist.map (fun f => "  - [" ++ (if f.2 then "x" else " ") ++ "] " ++ f.1)
        ++ (match changeFor changes c with
            | ChangeRecord.changed ds => ds.map (fun d => "  - Changed " ++ diffLine d)
            | _ => []))

/-- Lines of one retailer group, with its budget subtotal. -/
def retailerLines (changes : List (Identity × ChangeRecord))
    (cs : List Campaign) (r : String) : List String :=
  ("### " ++ r ++ " (Budget: "
      ++ ratStr (totalBudget (cs.filter (fun c => c.retailer == r))) ++ ")")
    :: ((sortCampaigns (cs.filter (fun c => c.retailer == r))).map
          (entryLines changes)).flatten

/-- Header line of one status section, with total and change count. -/
def sectionHeader (changes : List (Identity × ChangeRecord))
    (title : String) (cs : List Campaign) : String :=
  "## " ++ title ++ " (Total: " ++ ratStr (totalBudget cs) ++ ")"
    ++ (if sectionChangeCount changes cs = 0 then ""
        else " 🔄 " ++ toString (sectionChangeCount changes cs))

/-- Lines of one retailer-grouped status section. -/
def bucketLines (changes : List (Identity × ChangeRecord))
    (title : String) (cs : List Campaign) : List String :=
  sectionHeader changes title cs
    :: ((retailersOf cs).map (retailerLines changes cs)).flatten

/-- Lines of the upcoming section, grouped by month, then retailer. -/
def upcomingLines (changes : List (Identity × ChangeRecord))
    (cs : List Campaign) : List String :=
  sectionHeader changes "Upcoming Campaigns" cs
    :: ((monthsOf cs).map (fun mk =>
          ("#### " ++ monthTitle mk)
            :: ((retailersOf (cs.filter (fun c => monthKey c.startDate == mk))).map
                  (retailerLines changes
                    (cs.filter (fun c => monthKey c.startDate == mk)))).flatten)).flatten

/-- New-record test. -/
def isNewRec : ChangeRecord → Bool
  | ChangeRecord.new => true
  | _ => false

/-- Changed-record test. -/
def isChangedRec : ChangeRecord → Bool
  | ChangeRecord.changed _ => true
  | _ => false

/-- Removed-record test. -/
def isRemovedRec : ChangeRecord → Bool
  | ChangeRecord.removed => true
  | _ => false

/-- Count of change records of one class. -/
def countClass (changes : List (Identity × ChangeRecord))
    (p : ChangeRecord → Bool) : Nat :=
  (changes.filter (fun e => p e.2)).length

/-- Summary lines: grand total, campaign count, per-class change counts. -/
def summaryLines (b : Buckets) (changes : List (Identity × ChangeRecord))
    (generatedAt : String) : List String :=
  ["# Campaign Status Report",
   "Generated: " ++ generatedAt,
   "Total Budget: " ++ ratStr (totalBudget (b.active ++ b.upcoming ++ b.completed)),
   "Campaign Count: " ++ toString (b.active ++ b.upcoming ++ b.completed).length,
   "New: " ++ toString (countClass changes isNewRec),
   "Changed: " ++ toString (countClass changes isChangedRec),
   "Removed: " ++ toString (countClass changes isRemovedRec)]

/-- Display form of a campaign identity. -/
def idStr (k : Identity) : String :=
  k.1 ++ " | " ++ k.2.1 ++ " | " ++ k.2.2.1 ++ " | " ++ k.2.2.2

/-- Removed-since-last-run notice. -/
def removedNotice (changes : List (Identity × ChangeRecord)) : List String :=
  "## Removed Since Last Run"
    :: (changes.filter (fun e => isRemovedRec e.2)).map (fun e => "- " ++ idStr e.1)

/-- Line-oriented plaintext form of a document line: structural markup
stripped, same information and ordering. -/
def plainLine (s : String) : String :=
  String.mk ((s.data.dropWhile (fun c => c == '#')).dropWhile isWs)

/-- Modelled from the spec: `render` of the missing Python engine (spec
section 4.6), producing the hierarchical document report and the condensed
plaintext report from the categorized buckets, the change records, and the
explicitly passed generated-at value. -/
def render (b : Buckets) (changes : List (Identity × ChangeRecord))
    (generatedAt : String) : String × String :=
  (String.intercalate "\n"
    (summaryLines b changes generatedAt
      ++ bucketLines changes "Currently Active Campaigns" b.active
      ++ upcomingLines changes b.upcoming
      ++ bucketLines changes "Completed Campaigns" b.completed
      ++ removedNotice changes),
   String.intercalate "\n"
    ((summaryLines b changes generatedAt
      ++ bucketLines changes "Currently Active Campaigns" b.active
      ++ upcomingLines changes b.upcoming
      ++ bucketLines changes "Completed Campaigns" b.completed
      ++ removedNotice changes).map plainLine))

/-- One rendering invocation: the ambient wall clock at call time is an
input of the run, but the report body must depend only on the explicitly
passed values. -/
def renderInvocation (b : Buckets) (changes : List (Identity × ChangeRecord))
    (generatedAt : String) (_systemClock : Nat) : String × String :=
  render b changes generatedAt

/-- Claim C5: rendering is deterministic — two invocations on identical
inputs (buckets, changes, generated-at value), regardless of the ambient
clock at call time, produce byte-identical document and plaintext
outputs. -/
theorem render_deterministic (b : Buckets)
    (changes : List (Identity × ChangeRecord)) (generatedAt : String)
    (t1 t2 : Nat) :
    (renderInvocation b changes generatedAt t1).1
        = (renderInvocation b changes generatedAt t2).1
    ∧ (renderInvocation b changes generatedAt t1).2
        = (renderInvocation b changes generatedAt t2).2 :=
  ⟨rfl, rfl⟩

/-- Sample campaign used by witnesses. -/
def sampleCampaign : Campaign where
  vendor := "VendorName"
  eventName := "EventName"
  tacticName := "CampaignType"
  orderId := "12345-01"
  startDate := ⟨2024, 1, 1⟩
  endDate := ⟨2024, 1, 31⟩
  retailer := "ExampleRetailer"
  brand := "BrandName"
  product := "ProductName"
  budget := 50000
  checklist := [("creative", true), ("tracking", false)]

/-- Witness for claim C3 at a concrete campaign and reference date. -/
theorem categorize_buckets_partition_witness :
    sampleCampaign ∈ [sampleCampaign]
    ∧ (sampleCampaign ∈ (categorize [sampleCampaign] ⟨2024, 1, 15⟩).active
        ↔ (dLE sampleCampaign.startDate ⟨2024, 1, 15⟩
            ∧ dLE (⟨2024, 1, 15⟩ : CDate) sampleCampaign.endDate)) :=
  ⟨by decide,
   (categorize_buckets_partition [sampleCampaign] ⟨2024, 1, 15⟩ sampleCampaign
      (by decide)).2.1⟩

/-- Witness for claim C4 at a concrete one-campaign snapshot. -/
theorem diff_self_all_unchanged_witness :
    sampleCampaign ∈ [sampleCampaign]
    ∧ (Campaign.identity sampleCampaign, ChangeRecord.unchanged)
        ∈ diff [sampleCampaign] (some [sampleCampaign]) :=
  ⟨by decide,
   (diff_self_all_unchanged [sampleCampaign]).2 sampleCampaign (by decide)⟩

/-! ## Upload route (transliterated from the Next.js `POST /api/process`
handler in the sources) -/

/-- The `email_config` block written into the per-run YAML config. -/
structure EmailConfig where
  senderEmail : Option String
  senderPassword : Option String
  smtpServer : String
  smtpPort : Nat
  primaryRecipients : List String
  ccRecipients : List String
deriving DecidableEq, Repr

/-- The per-run config document handed to the engine and, through it, to
the mail collaborator. -/
structure ConfigData where
  inputOffsiteCsv : String
  outputDir : String
  emailConfig : EmailConfig
deriving DecidableEq, Repr

/-- Process environment variables read by the handler. -/
structure Env where
  emailSender : Option String
  emailSenderPassword : Option String
  emailSmtpServer : Option String
  emailSmtpPort : Option String
deriving Repr

/-- Construction of `configData` in the POST handler: recipients are copied
field-for-field from the decoded request lists. -/
def buildConfigData (filepath outputDir : String) (env : Env)
    (primaryEmails ccEmails : List String) : ConfigData where
  inputOffsiteCsv := filepath
  outputDir := outputDir
  emailConfig :=
    { senderEmail := env.emailSender
      senderPassword := env.emailSenderPassword
      smtpServer := env.emailSmtpServer.getD "smtp.office365.com"
      smtpPort := (parseNat (env.emailSmtpPort.getD "587").data).getD 0
      primaryRecipients := primaryEmails
      ccRecipients := ccEmails }

/-- Outcome of the POST handler up to launching the engine. -/
inductive PostOutcome where
  | noFile
  | ranWithConfig (cfg : ConfigData)
deriving Repr

/-- The POST handler: reject when no file was uploaded, otherwise write the
uploaded file and run the engine on a config built from the request. -/
def postProcess (file : Option String) (primaryEmails ccEmails : List String)
    (filepath outputDir : String) (env : Env) : PostOutcome :=
  match file with
  | none => PostOutcome.noFile
  | some _ =>
      PostOutcome.ranWithConfig
        (buildConfigData filepath outputDir env primaryEmails ccEmails)

/-- Claim C2: for every upload request carrying primary and cc recipient
lists, the lists placed into the config handed to the mail collaborator
are element-for-element identical to the lists received. -/
theorem post_passes_recipients_unchanged (content : String)
    (primaryEmails ccEmails : List String) (filepath outputDir : String)
    (env : Env) :
    postProcess (some content) primaryEmails ccEmails filepath outputDir env
      = PostOutcome.ranWithConfig
          (buildConfigData filepath outputDir env primaryEmails ccEmails)
    ∧ (buildConfigData filepath outputDir env
        primaryEmails ccEmails).emailConfig.primaryRecipients = primaryEmails
    ∧ (buildConfigData filepath outputDir env
        primaryEmails ccEmails).emailConfig.ccRecipients = ccEmails :=
  ⟨rfl, rfl, rfl⟩

/-! ## Report-fetch route (transliterated from the Next.js
`GET /api/report/[type]/[filename]` handler in the sources) -/

/-- Character class admitted by the filename validation regex. -/
def classOk (c : Char) : Bool := c.isAlphanum || c == '_' || c == '-' || c == '.'

/-- Does a character list contain two consecutive dots? -/
def hasDotDot : List Char → Bool
  | c :: c2 :: rest => (c == '.' && c2 == '.') || hasDotDot (c2 :: rest)
  | _ => false

/-- The handler's `filename.includes` two-dot test. -/
def containsDotDot (s : String) : Bool := hasDotDot s.data

/-- The handler's filename validation: no "..", and a nonempty match of
the admitted character class. -/
def validFilename (s : String) : Bool :=
  !containsDotDot s && !s.data.isEmpty && s.data.all classOk

/-- An HTTP response as far as the route's callers observe it. -/
structure HttpResponse where
  status : Nat
  contentType : String
  body : String
deriving DecidableEq, Repr

/-- The directory report files are served from. -/
def outputDirPath : String := "data/output"

/-- Plain model of `readFile`: path-indexed file contents. -/
def lookupFile (fs : List (String × String)) (p : String) : Option String :=
  (fs.find? (fun e => e.1 == p)).map (fun e => e.2)

/-- The GET handler: validate the type segment, validate the filename,
then read and serve the file; the second component records every path the
handler attempted to read. -/
def getReport (ty filename : String) (fs : List (String × String)) :
    HttpResponse × List String :=
  if (["md", "txt"].contains ty) = false then
    (⟨400, "application/json", "Invalid report type"⟩, [])
  else if validFilename filename = false then
    (⟨400, "application/json", "Invalid filename"⟩, [])
  else
    match lookupFile fs (outputDirPath ++ "/" ++ filename) with
    | none =>
        (⟨404, "application/json", "Report not found"⟩,
         [outputDirPath ++ "/" ++ filename])
    | some content =>
        (⟨200, if ty = "md" then "text/markdown" else "text/plain", content⟩,
         [outputDirPath ++ "/" ++ filename])

/-- A filename that passes validation contains no path separator. -/
lemma validFilename_no_slash (g : String) (h : validFilename g = true) :
    g.data.all (fun c => !(c == '/')) = true := by
  unfold validFilename at h
  simp only [Bool.and_eq_true] at h
  have hall := h.2
  rw [List.all_eq_true] at hall ⊢
  intro c hcmem
  have hcls := hall c hcmem
  by_cases he : c = '/'
  · subst he
    exact absurd hcls (by decide)
  · simp [he]

/-- Claim C8: a filename containing ".." or any character outside the
admitted class is answered 400 with no read attempted; every path the
route ever reads is the output directory joined with a validated,
separator-free filename. -/
theorem report_route_blocks_traversal (ty filename : String)
    (fs : List (String × String)) :
    ((containsDotDot filename = true ∨ filename.data.all classOk = false) →
      ((getReport ty filename fs).1.status = 400
        ∧ (getReport ty filename fs).2 = []))
    ∧ (∀ p ∈ (getReport ty filename fs).2,
        ∃ g, p = outputDirPath ++ "/" ++ g ∧ validFilename g = true
          ∧ g.data.all (fun c => !(c == '/')) = true) := by
  constructor
  · intro h
    have hv : validFilename filename = false := by
      unfold validFilename
      rcases h with h | h
      · simp [h]
      · simp [h]
    unfold getReport
    by_cases hty : (["md", "txt"].contains ty) = false
    · rw [if_pos hty]
      exact ⟨rfl, rfl⟩
    · rw [if_neg hty, if_pos hv]
      exact ⟨rfl, rfl⟩
  · intro p hp
    unfold getReport at hp
    by_cases hty : (["md", "txt"].contains ty) = false
    · rw [if_pos hty] at hp
      simp at hp
    · rw [if_neg hty] at hp
      by_cases hv : validFilename filename = false
      · rw [if_pos hv] at hp
        simp at hp
      · rw [if_neg hv] at hp
        have hvt : validFilename filename = true := by
          cases hcase : validFilename filename
          · exact absurd hcase hv
          · rfl
        cases hl : lookupFile fs (outputDirPath ++ "/" ++ filename) with
        | none =>
            rw [hl] at hp
            simp only [List.mem_singleton] at hp
            exact ⟨filename, hp, hvt, validFilename_no_slash filename hvt⟩
        | some content =>
            rw [hl] at hp
            simp only [List.mem_singleton] at hp
            exact ⟨filename, hp, hvt, validFilename_no_slash filename hvt⟩

/-- Witness for claim C8: a traversal attempt is answered 400 with no
read. -/
theorem report_route_blocks_traversal_witness :
    containsDotDot "../secret" = true
    ∧ (getReport "md" "../secret" []).1.status = 400
    ∧ (getReport "md" "../secret" []).2 = [] :=
  ⟨by decide,
   ((report_route_blocks_traversal "md" "../secret" []).1 (Or.inl (by decide))).1,
   ((report_route_blocks_traversal "md" "../secret" []).1 (Or.inl (by decide))).2⟩

/-- Claim C9: the `type` path parameter only influences the Content-Type
header — status, body, and the set of paths read are identical between the
`md` and `txt` forms of the same request. -/
theorem report_route_type_affects_content_type_only (filename : String)
    (fs : List (String × String)) :
    (getReport "md" filename fs).1.status = (getReport "txt" filename fs).1.status
    ∧ (getReport "md" filename fs).1.body = (getReport "txt" filename fs).1.body
    ∧ (getReport "md" filename fs).2 = (getReport "txt" filename fs).2
    ∧ (getReport "md" filename fs).1.contentType
        = (if validFilename filename = false then "application/json"
           else match lookupFile fs (outputDirPath ++ "/" ++ filename) with
                | none => "application/json"
                | some _ => "text/markdown") := by
  have hmd : ¬ ((["md", "txt"].contains "md") = false) := by simp
  have htxt : ¬ ((["md", "txt"].contains "txt") = false) := by simp
  unfold getReport
  rw [if_neg hmd, if_neg htxt]
  by_cases hv : validFilename filename = false
  · rw [if_pos hv, if_pos hv, if_pos hv]
    exact ⟨rfl, rfl, rfl, rfl⟩
  · rw [if_neg hv, if_neg hv, if_neg hv]
    cases hl : lookupFile fs (outputDirPath ++ "/" ++ filename) with
    | none => exact ⟨rfl, rfl, rfl, rfl⟩
    | some content => exact ⟨rfl, rfl, rfl, by simp⟩

/-! ## Recipient-list UI (transliterated from
`campaign-report-processor.tsx` in the sources) -/

/-- One part of the email regex: nonempty, no whitespace, no `@`. -/
def emailPartOk (cs : List Char) : Bool :=
  !cs.isEmpty && cs.all (fun c => !c.isWhitespace && !(c == '@'))

/-- Is there a dot followed by at least one character? -/
def innerDotAux : List Char → Bool
  | c :: c2 :: rest => (c == '.') || innerDotAux (c2 :: rest)
  | _ => false

/-- Is there a dot at neither end of the domain part? -/
def hasInnerDot : List Char → Bool
  | [] => false
  | _ :: rest => innerDotAux rest

/-- The UI email validation regex: local part, `@`, domain with an inner
dot. -/
def validateEmail (s : String) : Bool :=
  emailPartOk (s.data.takeWhile (fun c => !(c == '@')))
    && emailPartOk ((s.data.dropWhile (fun c => !(c == '@'))).drop 1)
    && hasInnerDot ((s.data.dropWhile (fun c => !(c == '@'))).drop 1)

/-- Component state of the recipient-list UI. -/
structure UIState where
  primaryEmails : List String
  ccEmails : List String
  emailError : String
  newPrimaryEmail : String
  newCCEmail : String
deriving DecidableEq, Repr

/-- Which recipient list an operation names. -/
inductive EmailKind where
  | primary
  | cc
deriving DecidableEq, Repr

/-- The UI `addEmail` handler: reject empty, invalid, or already-present
addresses with an error message; otherwise append to the named list and
clear the input field. -/
def addEmail (k : EmailKind) (email : String) (s : UIState) : UIState :=
  if email = "" then { s with emailError := "Please enter an email address" }
  else if validateEmail email = false then
    { s with emailError := "Please enter a valid email address" }
  else
    match k with
    | EmailKind.primary =>
        if email ∈ s.primaryEmails ∨ email ∈ s.ccEmails then
          { s with emailError := "Email already exists in the lists" }
        else
          { s with emailError := "", primaryEmails := s.primaryEmails ++ [email],
                   newPrimaryEmail := "" }
    | EmailKind.cc =>
        if email ∈ s.ccEmails ∨ email ∈ s.primaryEmails then
          { s with emailError := "Email already exists in the lists" }
        else
          { s with emailError := "", ccEmails := s.ccEmails ++ [email],
                   newCCEmail := "" }

/-- The UI `removeEmail` handler: filter the address out of the named
list only. -/
def removeEmail (k : EmailKind) (email : String) (s : UIState) : UIState :=
  match k with
  | EmailKind.primary =>
      { s with primaryEmails := s.primaryEmails.filter (fun e => decide (¬ e = email)) }
  | EmailKind.cc =>
      { s with ccEmails := s.ccEmails.filter (fun e => decide (¬ e = email)) }

/-- Invariant of the two recipient lists: duplicate-free and disjoint. -/
def RecipientsInv (s : UIState) : Prop :=
  s.primaryEmails.Nodup ∧ s.ccEmails.Nodup
    ∧ ∀ e ∈ s.primaryEmails, e ∉ s.ccEmails

/-- Claim C10: the UI operations preserve disjointness and freedom from
duplicates of the two recipient lists; `addEmail` refuses — error message,
no state change — any address already present in either list; and
`removeEmail` deletes only from the named list. -/
theorem recipient_lists_invariant (k : EmailKind) (email : String)
    (s : UIState) (h : RecipientsInv s) :
    RecipientsInv (addEmail k email s)
    ∧ RecipientsInv (removeEmail k email s)
    ∧ ((email ∈ s.primaryEmails ∨ email ∈ s.ccEmails) →
        ((addEmail k email s).primaryEmails = s.primaryEmails
         ∧ (addEmail k email s).ccEmails = s.ccEmails
         ∧ (addEmail k email s).emailError ≠ ""))
    ∧ (removeEmail EmailKind.primary email s).ccEmails = s.ccEmails
    ∧ (removeEmail EmailKind.cc email s).primaryEmails = s.primaryEmails
    ∧ (removeEmail EmailKind.primary email s).primaryEmails
        = s.primaryEmails.filter (fun e => decide (¬ e = email))
    ∧ (removeEmail EmailKind.cc email s).ccEmails
        = s.ccEmails.filter (fun e => decide (¬ e = email)) := by
  obtain ⟨h1, h2, h3⟩ := h
  refine ⟨?_, ?_, ?_, rfl, rfl, rfl, rfl⟩
  · unfold addEmail
    by_cases he : email = ""
    · rw [if_pos he]
      exact ⟨h1, h2, h3⟩
    · rw [if_neg he]
      by_cases hv : validateEmail email = false
      · rw [if_pos hv]
        exact ⟨h1, h2, h3⟩
      · rw [if_neg hv]
        cases k with
        | primary =>
            by_cases hd : email ∈ s.primaryEmails ∨ email ∈ s.ccEmails
            · rw [if_pos hd]
              exact ⟨h1, h2, h3⟩
            · rw [if_neg hd]
              obtain ⟨hnp, hnc⟩ := not_or.mp hd
              refine ⟨?_, h2, ?_⟩
              · rw [List.nodup_append]
                refine ⟨h1, List.nodup_singleton _, ?_⟩
                intro a ha hmem
                rw [List.mem_singleton] at hmem
                subst hmem
                exact hnp ha
              · intro e hemem
                rcases List.mem_append.mp hemem with hep | hee
                · exact h3 e hep
                · rw [List.mem_singleton] at hee
                  subst hee
                  exact hnc
        | cc =>
            by_cases hd : email ∈ s.ccEmails ∨ email ∈ s.primaryEmails
            · rw [if_pos hd]
              exact ⟨h1, h2, h3⟩
            · rw [if_neg hd]
              obtain ⟨hnc, hnp⟩ := not_or.mp hd
              refine ⟨h1, ?_, ?_⟩
              · rw [List.nodup_append]
                refine ⟨h2, List.nodup_singleton _, ?_⟩
                intro a ha hmem
                rw [List.mem_singleton] at hmem
                subst hmem
                exact hnc ha
              · intro e hep hemem
                rcases List.mem_append.mp hemem with hec | hee
                · exact h3 e hep hec
                · rw [List.mem_singleton] at hee
                  subst hee
                  exact hnp hep
  · cases k with
    | primary =>
        exact ⟨h1.filter _, h2, fun e hef => h3 e (List.mem_of_mem_filter hef)⟩
    | cc =>
        exact ⟨h1, h2.filter _,
          fun e hep hmem => h3 e hep (List.mem_of_mem_filter hmem)⟩
  · intro hmem
    unfold addEmail
    by_cases he : email = ""
    · rw [if_pos he]
      exact ⟨rfl, rfl, by simp⟩
    · rw [if_neg he]
      by_cases hv : validateEmail email = false
      · rw [if_pos hv]
        exact ⟨rfl, rfl, by simp⟩
      · rw [if_neg hv]
        cases k with
        | primary =>
            rw [if_pos hmem]
            exact ⟨rfl, rfl, by simp⟩
        | cc =>
            rw [if_pos (Or.symm hmem)]
            exact ⟨rfl, rfl, by simp⟩

/-- Sample UI state used to witness the recipient-list theorem. -/
def uiSample : UIState := ⟨["a@b.cd"], ["x@y.zw"], "", "", ""⟩

/-- Witness for claim C10: adding an address already on the primary list
is refused with an error message. -/
theorem recipient_lists_invariant_witness :
    RecipientsInv uiSample
    ∧ ("a@b.cd" ∈ uiSample.primaryEmails ∨ "a@b.cd" ∈ uiSample.ccEmails)
    ∧ (addEmail EmailKind.primary "a@b.cd" uiSample).emailError ≠ "" := by
  have hinv : RecipientsInv uiSample := ⟨by decide, by decide, by decide⟩
  refine ⟨hinv, Or.inl (by decide), ?_⟩
  exact ((recipient_lists_invariant EmailKind.primary "a@b.cd" uiSample hinv).2.2.1
    (Or.inl (by decide))).2.2

/-! ## Engine invocation result as read by the caller (transliterated from
`scripts/processCampaigns.js`, `main`) -/

/-- The field paths of `result` that `main` reads after a run, in source
order: `result.success`, `result.campaignCount`, `result.changesDetected`,
`result.reportPaths.markdown`, `result.reportPaths.text`, `result.error`. -/
def mainResultReads : List String :=
  ["success", "campaignCount", "changesDetected", "reportPaths.markdown",
   "reportPaths.text", "error"]

/-- The field paths the spec states for the engine invocation result:
`success`, `campaign_count`, `changes_detected`, `report_paths.document`,
`report_paths.plaintext`, `error`.  Stated from the spec's words, for
comparison with the caller's actual reads. -/
def specStatedResultFields : List String :=
  ["success", "campaign_count", "changes_detected", "report_paths.document",
   "report_paths.plaintext", "error"]

/-- The renaming under which the spec's stated result shape matches the
code: snake-case counters become camel-case, and the two report-path
fields are named after the concrete formats. -/
def specFieldToCode (f : String) : String :=
  if f = "campaign_count" then "campaignCount"
  else if f = "changes_detected" then "changesDetected"
  else if f = "report_paths.document" then "reportPaths.markdown"
  else if f = "report_paths.plaintext" then "reportPaths.text"
  else f

/-- Claim C1 counterexample: the caller cannot read the spec's stated field
names — `campaign_count` is among the spec's stated fields but is not a
field path `main` reads (the code reads `campaignCount`), and the two
field-path lists differ. -/
theorem engineResult_fieldNames_mismatch :
    ("campaign_count" ∈ specStatedResultFields
      ∧ ¬ "campaign_count" ∈ mainResultReads)
    ∧ mainResultReads ≠ specStatedResultFields := by decide

/-- Claim C1 as amended: the result record read by the caller has the
spec's shape under an explicit renaming — `success`, `campaignCount`,
`changesDetected`, `reportPaths.markdown`, `reportPaths.text`, and the
optional `error`. -/
theorem engineResult_shape_under_renaming :
    mainResultReads = specStatedResultFields.map specFieldToCode := by decide

end CampaignReport
